import Mathlib

/-!
A shallow embedding of `src/contracts/CustomDelegation/src/storage.rs`:
the stable-memory storage manager (header layout, slot addressing, and
persistent-state framing), together with proofs of its specified
properties.

Machine integers are modelled as `Nat` with explicit `% 2^w` where the
width matters; a byte is a `Nat` that well-formed data keeps below 256.
Stable memory is modelled as a page count plus a total byte function
(pages the host allocates are zero-initialised, and all reads performed
by the embedded code are bounds-checked before they reach the byte
function). Process traps are modelled as `Except` errors whose
constructors stand for the distinct trap messages of the source.
-/

namespace CustomDelegation

/-- Source constant `SUPPORTED_LAYOUT_VERSIONS = 3..=5` (lower endpoint). -/
def SUPPORTED_LAYOUT_VERSIONS_start : Nat := 3

/-- Source constant `SUPPORTED_LAYOUT_VERSIONS = 3..=5` (upper endpoint). -/
def SUPPORTED_LAYOUT_VERSIONS_end : Nat := 5

/-- Source constant `const WASM_PAGE_SIZE: u64 = 65_536`. -/
def WASM_PAGE_SIZE : Nat := 65536

/-- Source constant `const ENTRY_OFFSET: u64 = 2 * WASM_PAGE_SIZE`. -/
def ENTRY_OFFSET : Nat := 2 * WASM_PAGE_SIZE

/-- Source constant `const DEFAULT_ENTRY_SIZE: u16 = 4096`. -/
def DEFAULT_ENTRY_SIZE : Nat := 4096

/-- Source constant `const EMPTY_SALT: [u8; 32] = [0; 32]`. -/
def EMPTY_SALT : List Nat := List.replicate 32 0

/-- Source constant `const GB: u64 = 1 << 30`. -/
def GB : Nat := 2 ^ 30

/-- Source constant `const STABLE_MEMORY_SIZE: u64 = 32 * GB`. -/
def STABLE_MEMORY_SIZE : Nat := 32 * GB

/-- Source constant `const STABLE_MEMORY_RESERVE: u64 = 8 * GB / 10`. -/
def STABLE_MEMORY_RESERVE : Nat := 8 * GB / 10

/-- Source constant `const PERSISTENT_STATE_MAGIC: [u8; 4] = *b"IIPS"`. -/
def PERSISTENT_STATE_MAGIC : List Nat := [0x49, 0x49, 0x50, 0x53]

/-- The bytes of the header magic `b"IIC"`. -/
def IIC_MAGIC : List Nat := [0x49, 0x49, 0x43]

/-- Source constant `DEFAULT_RANGE_SIZE = (STABLE_MEMORY_SIZE - ENTRY_OFFSET - STABLE_MEMORY_RESERVE)
/ DEFAULT_ENTRY_SIZE`. -/
def DEFAULT_RANGE_SIZE : Nat :=
  (STABLE_MEMORY_SIZE - ENTRY_OFFSET - STABLE_MEMORY_RESERVE) / DEFAULT_ENTRY_SIZE

/-- Little-endian byte encoding of `n` on `w` bytes (the layout of Rust
`to_le_bytes` and of the fields of a `#[repr(packed)]` struct on the
little-endian wasm32 target). -/
def toLE : Nat → Nat → List Nat
  | 0, _ => []
  | w + 1, n => n % 256 :: toLE w (n / 256)

/-- Little-endian byte decoding (`from_le_bytes`); inputs are u8 bytes,
so the `% 256` only totalises the function. -/
def fromLE : List Nat → Nat
  | [] => 0
  | b :: bs => b % 256 + 256 * fromLE bs

/-- The `Header` struct (`#[repr(packed)]`), field for field. -/
structure Header where
  magic : List Nat
  version : Nat
  num_users : Nat
  id_range_lo : Nat
  id_range_hi : Nat
  entry_size : Nat
  salt : List Nat
  first_entry_offset : Nat
  new_layout_start : Nat
  migration_batch_size : Nat
deriving DecidableEq, Repr

/-- Well-formedness of a header value: fixed-size byte arrays have their
declared length and contain bytes, and numeric fields fit their machine
width (`u8`, `u32`, `u64`, `u16`). Every header the source constructs or
reads from memory satisfies this. -/
def Header.WF (h : Header) : Prop :=
  h.magic.length = 3 ∧ (∀ b ∈ h.magic, b < 256) ∧
  h.version < 2 ^ 8 ∧ h.num_users < 2 ^ 32 ∧
  h.id_range_lo < 2 ^ 64 ∧ h.id_range_hi < 2 ^ 64 ∧
  h.entry_size < 2 ^ 16 ∧
  h.salt.length = 32 ∧ (∀ b ∈ h.salt, b < 256) ∧
  h.first_entry_offset < 2 ^ 64 ∧
  h.new_layout_start < 2 ^ 32 ∧ h.migration_batch_size < 2 ^ 32

instance (h : Header) : Decidable h.WF := by
  unfold Header.WF; infer_instance

/-- Value of `std::mem::size_of::<Header>()` for the packed struct:
3 + 1 + 4 + 8 + 8 + 2 + 32 + 8 + 4 + 4 = 74 bytes. -/
def HEADER_BYTE_SIZE : Nat := 74

/-- The raw bytes of the packed `Header` struct on the little-endian
target, exactly as `flush` writes them (field order of the struct
declaration, each integer field little-endian, byte arrays verbatim). -/
def serializeHeader (h : Header) : List Nat :=
  h.magic ++ toLE 1 h.version ++ toLE 4 h.num_users ++
  toLE 8 h.id_range_lo ++ toLE 8 h.id_range_hi ++
  toLE 2 h.entry_size ++ h.salt ++ toLE 8 h.first_entry_offset ++
  toLE 4 h.new_layout_start ++ toLE 4 h.migration_batch_size

/-- Reinterpretation of a raw byte window as a `Header`, exactly as
`from_memory` overlays the struct onto the bytes read from address 0
(same offsets and widths as `serializeHeader`). -/
def deserializeHeader (bs : List Nat) : Header :=
  { magic := bs.take 3
  , version := fromLE ((bs.drop 3).take 1)
  , num_users := fromLE ((bs.drop 4).take 4)
  , id_range_lo := fromLE ((bs.drop 8).take 8)
  , id_range_hi := fromLE ((bs.drop 16).take 8)
  , entry_size := fromLE ((bs.drop 24).take 2)
  , salt := (bs.drop 26).take 32
  , first_entry_offset := fromLE ((bs.drop 58).take 8)
  , new_layout_start := fromLE ((bs.drop 66).take 4)
  , migration_batch_size := fromLE ((bs.drop 70).take 4) }

/-- Modelled from the spec: the Host Memory Abstraction (external crate
`ic_stable_structures`) — a byte-addressable region that starts empty
and grows in pages of `WASM_PAGE_SIZE` bytes; fresh pages are
zero-initialised. `sizePages` is `memory.size()`; `data` gives the byte
at each address (addresses are only consulted below
`sizePages * WASM_PAGE_SIZE` by the bounds-checked readers). -/
structure Memory where
  sizePages : Nat
  data : Nat → Nat

/-- A memory with no allocated pages (all bytes zero). -/
def emptyMemory : Memory := { sizePages := 0, data := fun _ => 0 }

/-- The byte function after writing the bytes `bs` starting at `addr`. -/
def writeData (addr : Nat) (bs : List Nat) (d : Nat → Nat) : Nat → Nat :=
  fun i => if addr ≤ i ∧ i < addr + bs.length then bs.getD (i - addr) 0 else d i

/-- The `n` bytes starting at `addr`. -/
def readData (d : Nat → Nat) (addr n : Nat) : List Nat :=
  (List.range n).map (fun k => d (addr + k))

/-- The `OutOfBounds` error of the bounded reader: the range actually
available (`max_address`) versus the address of the failed access. -/
structure OutOfBounds where
  max_address : Nat
  attempted_read_address : Nat
deriving DecidableEq, Repr

namespace Writer

/-- Modelled from the spec: `Writer::new(memory, addr).write(bs)` of the
external crate — grows the memory by whole pages so that
`addr + bs.length` bytes are addressable (growth is assumed to succeed),
then writes the bytes at `addr`. -/
def write (m : Memory) (addr : Nat) (bs : List Nat) : Memory :=
  { sizePages := max m.sizePages ((addr + bs.length + WASM_PAGE_SIZE - 1) / WASM_PAGE_SIZE)
  , data := writeData addr bs m.data }

end Writer

namespace Reader

/-- Modelled from the spec: the bounded reader of the external crate —
truncates a read at the end of allocated memory and reports how many
bytes were actually transferred, and fails with the available range when
the read starts at or past the end of memory. -/
def read (m : Memory) (offset len : Nat) : Except OutOfBounds (List Nat) :=
  let memEnd := m.sizePages * WASM_PAGE_SIZE
  if len + offset > memEnd then
    if offset < memEnd then
      .ok (readData m.data offset (memEnd - offset))
    else
      .error { max_address := memEnd, attempted_read_address := offset }
  else
    .ok (readData m.data offset len)

end Reader

/-- Modelled from the spec: the external Binary Codec error
(`candid::error::Error`); its internals are out of scope. -/
inductive CandidError
  | decodeError
deriving DecidableEq, Repr

/-- Modelled from the spec: the `PersistentState` snapshot (defined in
`crate::state`, outside this module); its structured content is out of
scope, so it is represented by its encoded byte payload. -/
structure PersistentState where
  bytes : List Nat
deriving DecidableEq, Repr

/-- Modelled from the spec: `candid::encode_one` of the external Binary
Codec — encoding is infallible for in-scope values; with snapshots
represented by their payloads it is the identity on the payload. -/
def candidEncodeOne (s : PersistentState) : List Nat := s.bytes

/-- Modelled from the spec: `candid::decode_one` of the external Binary
Codec, the inverse of `candidEncodeOne` on encoded payloads. -/
def candidDecodeOne (bs : List Nat) : Except CandidError PersistentState :=
  .ok { bytes := bs }

/-- Source type `enum PersistentStateError`. -/
inductive PersistentStateError
  | candidError (e : CandidError)
  | notFound
  | readError (e : OutOfBounds)
deriving DecidableEq, Repr

/-- The distinct `trap` messages of `Storage::new`. -/
inductive NewTrap
  | improperRange (lo hi : Nat)
  | rangeTooLarge (lo hi : Nat)
deriving DecidableEq, Repr

/-- The distinct `trap` messages of `Storage::from_memory`:
`invalidMagic` is "stable memory header: invalid magic",
`noLongerSupported` is "stable memory layout version v is no longer
supported: Either reinstall (wiping stable memory) or migrate using a
previous II version", and `unsupportedVersion` is
"unsupported header version: v". -/
inductive HeaderTrap
  | invalidMagic (magic : List Nat)
  | noLongerSupported (version : Nat)
  | unsupportedVersion (version : Nat)
deriving DecidableEq, Repr

/-- Source type `pub struct Storage<M>`: the header plus the memory handle. -/
structure Storage where
  header : Header
  memory : Memory

/-- The header literal `Storage::new` constructs on its non-trapping
path: magic `"IIC"`, the latest supported version 5, zero users, the
given range, the default entry size, the unset salt, and the default
entry offset. -/
def initialHeader (id_range_lo id_range_hi : Nat) : Header :=
  { magic := IIC_MAGIC
  , version := 5
  , num_users := 0
  , id_range_lo := id_range_lo
  , id_range_hi := id_range_hi
  , entry_size := DEFAULT_ENTRY_SIZE
  , salt := EMPTY_SALT
  , first_entry_offset := ENTRY_OFFSET
  , new_layout_start := 0
  , migration_batch_size := 0 }

/-- Source function `Storage::new((id_range_lo, id_range_hi), memory)`: traps (modelled
as `.error`) on an improper or oversized range, otherwise pairs a fresh
default header with the memory; nothing is written to memory. -/
def Storage.new (id_range_lo id_range_hi : Nat) (memory : Memory) :
    Except NewTrap Storage :=
  if id_range_hi < id_range_lo then
    .error (.improperRange id_range_lo id_range_hi)
  else if id_range_hi - id_range_lo > DEFAULT_RANGE_SIZE then
    .error (.rangeTooLarge id_range_lo id_range_hi)
  else
    .ok { header := initialHeader id_range_lo id_range_hi, memory := memory }

/-- Source function `Storage::salt`: `None` when the stored salt is the all-zero
sentinel, otherwise the stored value. -/
def Storage.salt (s : Storage) : Option (List Nat) :=
  if s.header.salt = EMPTY_SALT then none else some s.header.salt

/-- Source function `Storage::flush`: serialize the header and write it at address 0
(growing the memory by a page if it was empty). -/
def Storage.flush (s : Storage) : Storage :=
  { s with memory := Writer.write s.memory 0 (serializeHeader s.header) }

/-- Source function `Storage::update_salt`: store the new salt in the header and
immediately flush. -/
def Storage.update_salt (s : Storage) (salt : List Nat) : Storage :=
  Storage.flush { s with header := { s.header with salt := salt } }

/-- Source function `Storage::from_memory`: `none` when the memory has no pages;
otherwise overlay the header struct onto the first
`HEADER_BYTE_SIZE` bytes (this raw read cannot be out of range since a
page is larger than the header) and trap (modelled as `.error`) on a bad
magic or an unsupported version. -/
def Storage.from_memory (memory : Memory) :
    Except HeaderTrap (Option Storage) :=
  if memory.sizePages < 1 then
    .ok none
  else
    let header := deserializeHeader (readData memory.data 0 HEADER_BYTE_SIZE)
    if header.magic ≠ IIC_MAGIC then
      .error (.invalidMagic header.magic)
    else if header.version < SUPPORTED_LAYOUT_VERSIONS_start then
      .error (.noLongerSupported header.version)
    else if ¬ (SUPPORTED_LAYOUT_VERSIONS_start ≤ header.version ∧
               header.version ≤ SUPPORTED_LAYOUT_VERSIONS_end) then
      .error (.unsupportedVersion header.version)
    else
      .ok (some { header := header, memory := memory })

/-- Source function `Storage::user_count`. -/
def Storage.user_count (s : Storage) : Nat := s.header.num_users

/-- Source function `Storage::record_address`: `first_entry_offset + record_number *
entry_size` in the 64-bit offset space (the operands are bounded well
below overflow, proved separately). -/
def Storage.record_address (s : Storage) (record_number : Nat) : Nat :=
  s.header.first_entry_offset + record_number * s.header.entry_size

/-- Source function `Storage::candid_entry_size_limit`: `entry_size - size_of::<u16>()`. -/
def Storage.candid_entry_size_limit (s : Storage) : Nat :=
  s.header.entry_size - 2

/-- Source function `Storage::unused_memory_start`: the address of the first byte not
yet allocated to a user. -/
def Storage.unused_memory_start (s : Storage) : Nat :=
  s.record_address s.header.num_users

/-- Source function `Storage::version`. -/
def Storage.version (s : Storage) : Nat := s.header.version

/-- Source function `Storage::write_persistent_state`: encode the state and write, in
order, the 4-byte magic, the 8-byte little-endian length, and the
encoded bytes, starting at `unused_memory_start` (one `Writer`, so each
write starts where the previous one ended). -/
def Storage.write_persistent_state (s : Storage) (state : PersistentState) :
    Storage :=
  let address := s.unused_memory_start
  let encoded_state := candidEncodeOne state
  let m1 := Writer.write s.memory address PERSISTENT_STATE_MAGIC
  let m2 := Writer.write m1 (address + 4) (toLE 8 encoded_state.length)
  let m3 := Writer.write m2 (address + 4 + 8) encoded_state
  { s with memory := m3 }

/-- Source function `Storage::read_persistent_state`: the not-found short-circuit, the
magic check, the length read, the content read, and the decode, with the
same error mapping as the source (a reader failure on the magic read is
`NotFound`; a short length or content read is a `ReadError` whose
`max_address` is the address after the bytes actually read). The content
buffer is sized by `size as usize`, and `usize` is 32 bits on the wasm32
canister target, so the content read length is `size % 2 ^ 32` while the
read-count comparison is against the full 64-bit `size`. -/
def Storage.read_persistent_state (s : Storage) :
    Except PersistentStateError PersistentState :=
  let address := s.unused_memory_start
  if address > s.memory.sizePages * WASM_PAGE_SIZE then
    .error .notFound
  else
    match Reader.read s.memory address 4 with
    | .error _ => .error .notFound
    | .ok magic_buf =>
      if magic_buf.length ≠ 4 ∨ magic_buf ≠ PERSISTENT_STATE_MAGIC then
        .error .notFound
      else
        match Reader.read s.memory (address + 4) 8 with
        | .error e => .error (.readError e)
        | .ok size_buf =>
          if size_buf.length ≠ 8 then
            .error (.readError
              { max_address := address + 4 + size_buf.length
              , attempted_read_address := address + 4 + size_buf.length + 1 })
          else
            let size := fromLE size_buf
            match Reader.read s.memory (address + 4 + 8) (size % 2 ^ 32) with
            | .error e => .error (.readError e)
            | .ok data_buf =>
              if data_buf.length ≠ size then
                .error (.readError
                  { max_address := address + 4 + 8 + data_buf.length
                  , attempted_read_address := address + 4 + 8 + data_buf.length + 1 })
              else
                match candidDecodeOne data_buf with
                | .error e => .error (.candidError e)
                | .ok state => .ok state

/-- The header `Storage::new((10, 20), _)` constructs, used as a
concrete test value. -/
def exampleHeader : Header :=
  { magic := IIC_MAGIC
  , version := 5
  , num_users := 0
  , id_range_lo := 10
  , id_range_hi := 20
  , entry_size := DEFAULT_ENTRY_SIZE
  , salt := EMPTY_SALT
  , first_entry_offset := ENTRY_OFFSET
  , new_layout_start := 0
  , migration_batch_size := 0 }

/-- A fresh storage over an empty memory, used as a concrete test
value. -/
def exampleStorage : Storage :=
  { header := exampleHeader, memory := emptyMemory }

/-- A one-page all-zero memory, used as a concrete test value. -/
def zeroPageMemory : Memory :=
  { sizePages := 1, data := fun _ => 0 }

/-- A storage whose persistent-state magic sits 6 bytes before the end
of its single allocated page, so that the magic is present but the
8-byte length field is truncated; used as a concrete test value. -/
def truncStorage : Storage :=
  { header := { initialHeader 10 20 with first_entry_offset := 65530 }
  , memory :=
      { sizePages := 1
      , data := writeData 65530 PERSISTENT_STATE_MAGIC (fun _ => 0) } }

/-- A storage whose persistent-state frame at address 100 declares a
content length of `2 ^ 32 + 10` bytes: the wasm32 `size as usize`
truncation sizes the content buffer at 10 bytes, all of which are
available well before the end of the single allocated page; used as a
concrete test value. -/
def bigLenStorage : Storage :=
  { header := { initialHeader 10 20 with first_entry_offset := 100 }
  , memory :=
      { sizePages := 1
      , data := writeData 100 PERSISTENT_STATE_MAGIC
          (writeData 104 (toLE 8 (2 ^ 32 + 10)) (fun _ => 0)) } }

/-! ## Byte-encoding lemmas -/

theorem toLE_length (w n : Nat) : (toLE w n).length = w := by
  induction w generalizing n with
  | zero => rfl
  | succ w ih => simp [toLE, ih]

theorem toLE_lt (w n : Nat) : ∀ b ∈ toLE w n, b < 256 := by
  induction w generalizing n with
  | zero => intro b hb; simp [toLE] at hb
  | succ w ih =>
    intro b hb
    simp only [toLE, List.mem_cons] at hb
    rcases hb with h | h
    · exact h ▸ Nat.mod_lt _ (by norm_num)
    · exact ih _ b h

theorem fromLE_toLE (w n : Nat) : fromLE (toLE w n) = n % 256 ^ w := by
  induction w generalizing n with
  | zero => simp [toLE, fromLE, Nat.mod_one]
  | succ w ih =>
    have h256 : (256 : Nat) ^ (w + 1) = 256 * 256 ^ w := by ring
    rw [toLE, fromLE, ih, h256, Nat.mod_mul]
    simp [Nat.mod_mod_of_dvd]

/-! ## Memory lemmas -/

theorem readData_length (d : Nat → Nat) (a n : Nat) :
    (readData d a n).length = n := by
  simp [readData]

theorem getD_map_range (l : List Nat) :
    (List.range l.length).map (fun k => l.getD k 0) = l := by
  apply List.ext_getElem
  · simp
  · intro i h1 h2
    simp only [List.getElem_map, List.getElem_range]
    exact List.getD_eq_getElem l 0 h2

theorem readData_writeData_self (a : Nat) (bs : List Nat) (d : Nat → Nat) :
    readData (writeData a bs d) a bs.length = bs := by
  unfold readData writeData
  have step : (List.range bs.length).map
      (fun k => if a ≤ a + k ∧ a + k < a + bs.length then bs.getD (a + k - a) 0
                else d (a + k)) =
      (List.range bs.length).map (fun k => bs.getD k 0) := by
    apply List.map_congr_left
    intro k hk
    have hk' : k < bs.length := List.mem_range.mp hk
    rw [if_pos ⟨Nat.le_add_right a k, by omega⟩]
    congr 1
    omega
  rw [step, getD_map_range]

theorem readData_writeData_of_le (a x n : Nat) (bs : List Nat) (d : Nat → Nat)
    (h : x + n ≤ a) : readData (writeData a bs d) x n = readData d x n := by
  unfold readData writeData
  apply List.map_congr_left
  intro k hk
  have hk' : k < n := List.mem_range.mp hk
  rw [if_neg]
  omega

/-- Inequality `n ≤ ⌈n / k⌉ * k` for `k > 0`: growing to the covering page count
makes at least `n` bytes addressable. -/
theorem le_ceil_mul (k n : Nat) (hk : 0 < k) : n ≤ (n + k - 1) / k * k := by
  rcases Nat.eq_zero_or_pos n with h | h
  · simp [h]
  · have hrw : n + k - 1 = (n - 1) + k := by omega
    rw [hrw, Nat.add_div_right _ hk]
    have hmod : (n - 1) % k < k := Nat.mod_lt _ hk
    have hdm := Nat.div_add_mod (n - 1) k
    calc n ≤ k * ((n - 1) / k) + k := by omega
    _ = ((n - 1) / k + 1) * k := by ring

theorem Writer.write_cover (m : Memory) (a : Nat) (bs : List Nat) :
    a + bs.length ≤ (Writer.write m a bs).sizePages * WASM_PAGE_SIZE := by
  unfold Writer.write
  have h := le_ceil_mul WASM_PAGE_SIZE (a + bs.length) (by norm_num [WASM_PAGE_SIZE])
  calc a + bs.length
      ≤ (a + bs.length + WASM_PAGE_SIZE - 1) / WASM_PAGE_SIZE * WASM_PAGE_SIZE := h
    _ ≤ _ := Nat.mul_le_mul_right _ (Nat.le_max_right _ _)

theorem Writer.write_mono (m : Memory) (a : Nat) (bs : List Nat) :
    m.sizePages ≤ (Writer.write m a bs).sizePages := by
  unfold Writer.write
  exact Nat.le_max_left _ _

theorem Writer.write_data (m : Memory) (a : Nat) (bs : List Nat) :
    (Writer.write m a bs).data = writeData a bs m.data := rfl

/-! ## Header layout lemmas -/

theorem serializeHeader_length (h : Header) (hw : h.WF) :
    (serializeHeader h).length = HEADER_BYTE_SIZE := by
  obtain ⟨h1, _, _, _, _, _, _, h8, _⟩ := hw
  simp [serializeHeader, toLE_length, h1, h8, HEADER_BYTE_SIZE]

/-- The byte offsets of every header field inside the serialized window:
magic at 0, version at 3, num_users at 4, id_range_lo at 8, id_range_hi
at 16, entry_size at 24, salt at 26, first_entry_offset at 58,
new_layout_start at 66, migration_batch_size at 70. -/
theorem serializeHeader_fields (h : Header) (hw : h.WF) :
    (serializeHeader h).take 3 = h.magic ∧
    ((serializeHeader h).drop 3).take 1 = toLE 1 h.version ∧
    ((serializeHeader h).drop 4).take 4 = toLE 4 h.num_users ∧
    ((serializeHeader h).drop 8).take 8 = toLE 8 h.id_range_lo ∧
    ((serializeHeader h).drop 16).take 8 = toLE 8 h.id_range_hi ∧
    ((serializeHeader h).drop 24).take 2 = toLE 2 h.entry_size ∧
    ((serializeHeader h).drop 26).take 32 = h.salt ∧
    ((serializeHeader h).drop 58).take 8 = toLE 8 h.first_entry_offset ∧
    ((serializeHeader h).drop 66).take 4 = toLE 4 h.new_layout_start ∧
    ((serializeHeader h).drop 70).take 4 = toLE 4 h.migration_batch_size := by
  obtain ⟨h1, _, _, _, _, _, _, h8, _⟩ := hw
  have e3 : (serializeHeader h).drop 3 =
      toLE 1 h.version ++ (toLE 4 h.num_users ++ (toLE 8 h.id_range_lo ++
      (toLE 8 h.id_range_hi ++ (toLE 2 h.entry_size ++ (h.salt ++
      (toLE 8 h.first_entry_offset ++ (toLE 4 h.new_layout_start ++
      toLE 4 h.migration_batch_size))))))) := by
    unfold serializeHeader
    simp only [List.append_assoc]
    exact List.drop_left' h1
  have e4 : (serializeHeader h).drop 4 =
      toLE 4 h.num_users ++ (toLE 8 h.id_range_lo ++
      (toLE 8 h.id_range_hi ++ (toLE 2 h.entry_size ++ (h.salt ++
      (toLE 8 h.first_entry_offset ++ (toLE 4 h.new_layout_start ++
      toLE 4 h.migration_batch_size)))))) := by
    have : (serializeHeader h).drop 4 = ((serializeHeader h).drop 3).drop 1 := by
      rw [List.drop_drop]
    rw [this, e3]
    exact List.drop_left' (toLE_length 1 _)
  have e8 : (serializeHeader h).drop 8 =
      toLE 8 h.id_range_lo ++
      (toLE 8 h.id_range_hi ++ (toLE 2 h.entry_size ++ (h.salt ++
      (toLE 8 h.first_entry_offset ++ (toLE 4 h.new_layout_start ++
      toLE 4 h.migration_batch_size))))) := by
    have : (serializeHeader h).drop 8 = ((serializeHeader h).drop 4).drop 4 := by
      rw [List.drop_drop]
    rw [this, e4]
    exact List.drop_left' (toLE_length 4 _)
  have e16 : (serializeHeader h).drop 16 =
      toLE 8 h.id_range_hi ++ (toLE 2 h.entry_size ++ (h.salt ++
      (toLE 8 h.first_entry_offset ++ (toLE 4 h.new_layout_start ++
      toLE 4 h.migration_batch_size)))) := by
    have : (serializeHeader h).drop 16 = ((serializeHeader h).drop 8).drop 8 := by
      rw [List.drop_drop]
    rw [this, e8]
    exact List.drop_left' (toLE_length 8 _)
  have e24 : (serializeHeader h).drop 24 =
      toLE 2 h.entry_size ++ (h.salt ++
      (toLE 8 h.first_entry_offset ++ (toLE 4 h.new_layout_start ++
      toLE 4 h.migration_batch_size))) := by
    have : (serializeHeader h).drop 24 = ((serializeHeader h).drop 16).drop 8 := by
      rw [List.drop_drop]
    rw [this, e16]
    exact List.drop_left' (toLE_length 8 _)
  have e26 : (serializeHeader h).drop 26 =
      h.salt ++ (toLE 8 h.first_entry_offset ++ (toLE 4 h.new_layout_start ++
      toLE 4 h.migration_batch_size)) := by
    have : (serializeHeader h).drop 26 = ((serializeHeader h).drop 24).drop 2 := by
      rw [List.drop_drop]
    rw [this, e24]
    exact List.drop_left' (toLE_length 2 _)
  have e58 : (serializeHeader h).drop 58 =
      toLE 8 h.first_entry_offset ++ (toLE 4 h.new_layout_start ++
      toLE 4 h.migration_batch_size) := by
    have : (serializeHeader h).drop 58 = ((serializeHeader h).drop 26).drop 32 := by
      rw [List.drop_drop]
    rw [this, e26]
    exact List.drop_left' h8
  have e66 : (serializeHeader h).drop 66 =
      toLE 4 h.new_layout_start ++ toLE 4 h.migration_batch_size := by
    have : (serializeHeader h).drop 66 = ((serializeHeader h).drop 58).drop 8 := by
      rw [List.drop_drop]
    rw [this, e58]
    exact List.drop_left' (toLE_length 8 _)
  have e70 : (serializeHeader h).drop 70 = toLE 4 h.migration_batch_size := by
    have : (serializeHeader h).drop 70 = ((serializeHeader h).drop 66).drop 4 := by
      rw [List.drop_drop]
    rw [this, e66]
    exact List.drop_left' (toLE_length 4 _)
  refine ⟨?_, ?_, ?_, ?_, ?_, ?_, ?_, ?_, ?_, ?_⟩
  · unfold serializeHeader
    simp only [List.append_assoc]
    exact List.take_left' h1
  · rw [e3]; exact List.take_left' (toLE_length 1 _)
  · rw [e4]; exact List.take_left' (toLE_length 4 _)
  · rw [e8]; exact List.take_left' (toLE_length 8 _)
  · rw [e16]; exact List.take_left' (toLE_length 8 _)
  · rw [e24]; exact List.take_left' (toLE_length 2 _)
  · rw [e26]; exact List.take_left' h8
  · rw [e58]; exact List.take_left' (toLE_length 8 _)
  · rw [e66]; exact List.take_left' (toLE_length 4 _)
  · rw [e70]
    exact List.take_of_length_le (le_of_eq (toLE_length 4 _))

theorem deserializeHeader_serializeHeader (h : Header) (hw : h.WF) :
    deserializeHeader (serializeHeader h) = h := by
  obtain ⟨f1, f2, f3, f4, f5, f6, f7, f8, f9, f10⟩ := serializeHeader_fields h hw
  obtain ⟨_, _, h3, h4, h5, h6, h7, _, _, h10, h11, h12⟩ := hw
  cases h with
  | mk magic version num_users id_range_lo id_range_hi entry_size salt
      first_entry_offset new_layout_start migration_batch_size =>
    simp only [deserializeHeader, Header.mk.injEq] at *
    refine ⟨f1, ?_, ?_, ?_, ?_, ?_, f7, ?_, ?_, ?_⟩
    · rw [f2, fromLE_toLE]; exact Nat.mod_eq_of_lt (by simpa using h3)
    · rw [f3, fromLE_toLE]; exact Nat.mod_eq_of_lt (by simpa using h4)
    · rw [f4, fromLE_toLE]; exact Nat.mod_eq_of_lt (by simpa using h5)
    · rw [f5, fromLE_toLE]; exact Nat.mod_eq_of_lt (by simpa using h6)
    · rw [f6, fromLE_toLE]; exact Nat.mod_eq_of_lt (by simpa using h7)
    · rw [f8, fromLE_toLE]; exact Nat.mod_eq_of_lt (by simpa using h10)
    · rw [f9, fromLE_toLE]; exact Nat.mod_eq_of_lt (by simpa using h11)
    · rw [f10, fromLE_toLE]; exact Nat.mod_eq_of_lt (by simpa using h12)

/-! ## Claim theorems -/

/-- C2: the serialized header places the 3-byte magic at offset 0, the
version byte at offset 3, the 4-byte LE record count at offset 4, the
8-byte LE range lower bound at offset 8, the 8-byte LE range upper bound
at offset 16, the 2-byte LE slot size at offset 24, the 32 raw salt
bytes at offset 26, and the 8-byte LE base address at offset 58; those
leading fields occupy exactly the first 66 bytes; and deserialization
(`from_memory`) reads the same offsets, recovering the header
exactly. -/
theorem C2_header_byte_layout (h : Header) (hw : h.WF) :
    (serializeHeader h).take 3 = h.magic ∧
    ((serializeHeader h).drop 3).take 1 = toLE 1 h.version ∧
    ((serializeHeader h).drop 4).take 4 = toLE 4 h.num_users ∧
    ((serializeHeader h).drop 8).take 8 = toLE 8 h.id_range_lo ∧
    ((serializeHeader h).drop 16).take 8 = toLE 8 h.id_range_hi ∧
    ((serializeHeader h).drop 24).take 2 = toLE 2 h.entry_size ∧
    ((serializeHeader h).drop 26).take 32 = h.salt ∧
    ((serializeHeader h).drop 58).take 8 = toLE 8 h.first_entry_offset ∧
    (serializeHeader h).take 66 =
      h.magic ++ toLE 1 h.version ++ toLE 4 h.num_users ++
      toLE 8 h.id_range_lo ++ toLE 8 h.id_range_hi ++ toLE 2 h.entry_size ++
      h.salt ++ toLE 8 h.first_entry_offset ∧
    deserializeHeader (serializeHeader h) = h := by
  obtain ⟨f1, f2, f3, f4, f5, f6, f7, f8, _, _⟩ := serializeHeader_fields h hw
  have h1 : h.magic.length = 3 := hw.1
  have h8 : h.salt.length = 32 := hw.2.2.2.2.2.2.2.1
  refine ⟨f1, f2, f3, f4, f5, f6, f7, f8, ?_, deserializeHeader_serializeHeader h hw⟩
  have hsplit : serializeHeader h =
      (h.magic ++ toLE 1 h.version ++ toLE 4 h.num_users ++
       toLE 8 h.id_range_lo ++ toLE 8 h.id_range_hi ++ toLE 2 h.entry_size ++
       h.salt ++ toLE 8 h.first_entry_offset) ++
      (toLE 4 h.new_layout_start ++ toLE 4 h.migration_batch_size) := by
    unfold serializeHeader
    simp [List.append_assoc]
  rw [hsplit]
  exact List.take_left' (by simp [toLE_length, h1, h8])

/-- C2 witness: the layout theorem evaluated at the concrete header of
`Storage::new((10, 20), _)`. -/
theorem C2_header_byte_layout_witness :
    exampleHeader.WF ∧
    deserializeHeader (serializeHeader exampleHeader) = exampleHeader :=
  ⟨by decide, (C2_header_byte_layout exampleHeader (by decide)).2.2.2.2.2.2.2.2.2⟩

/-- C5: `record_address` equals `first_entry_offset + n * entry_size`,
is strictly increasing in `n` (the slot size is positive), equals the
base address at `n = 0`; with the default base 131072 and slot size 4096
it maps 5 to 151552, and for every record number in the `u32` domain the
address stays below `2 ^ 64` (no 64-bit overflow). -/
theorem C5_record_address (s : Storage) (hpos : 0 < s.header.entry_size) :
    (∀ n, s.record_address n =
       s.header.first_entry_offset + n * s.header.entry_size) ∧
    StrictMono s.record_address ∧
    s.record_address 0 = s.header.first_entry_offset ∧
    (s.header.first_entry_offset = ENTRY_OFFSET →
     s.header.entry_size = DEFAULT_ENTRY_SIZE →
       s.record_address 5 = 151552 ∧
       ∀ n, n < 2 ^ 32 → s.record_address n < 2 ^ 64) := by
  refine ⟨fun n => rfl, ?_, by simp [Storage.record_address], ?_⟩
  · intro a b hab
    unfold Storage.record_address
    exact Nat.add_lt_add_left (Nat.mul_lt_mul_of_lt_of_le hab le_rfl hpos) _
  · intro hoff hsize
    constructor
    · simp [Storage.record_address, hoff, hsize, ENTRY_OFFSET, DEFAULT_ENTRY_SIZE,
        WASM_PAGE_SIZE]
    · intro n hn
      unfold Storage.record_address
      rw [hoff, hsize]
      have h1 : n * DEFAULT_ENTRY_SIZE < 2 ^ 32 * DEFAULT_ENTRY_SIZE :=
        Nat.mul_lt_mul_of_lt_of_le hn le_rfl (by norm_num [DEFAULT_ENTRY_SIZE])
      norm_num [DEFAULT_ENTRY_SIZE, ENTRY_OFFSET, WASM_PAGE_SIZE] at h1 ⊢
      omega

/-- C5 witness: the addressing theorem evaluated at the concrete fresh
storage (base 131072, slot size 4096, `address_of(5) = 151552`). -/
theorem C5_record_address_witness :
    0 < exampleStorage.header.entry_size ∧
    exampleStorage.record_address 0 = exampleStorage.header.first_entry_offset ∧
    exampleStorage.record_address 5 = 151552 :=
  ⟨by decide,
   (C5_record_address exampleStorage (by decide)).2.2.1,
   ((C5_record_address exampleStorage (by decide)).2.2.2 rfl rfl).1⟩

/-- C8: `salt` returns `none` exactly when the stored 32-byte salt is
the all-zero sentinel and otherwise returns the stored value;
`update_salt` stores the new value in the header and immediately writes
the serialized header at address 0 of memory (a flush). -/
theorem C8_salt_contract (s : Storage) (v : List Nat) :
    (s.salt = none ↔ s.header.salt = EMPTY_SALT) ∧
    (s.header.salt ≠ EMPTY_SALT → s.salt = some s.header.salt) ∧
    (s.update_salt v).header = { s.header with salt := v } ∧
    (s.update_salt v).memory =
      Writer.write s.memory 0 (serializeHeader { s.header with salt := v }) := by
  refine ⟨?_, ?_, rfl, rfl⟩
  · unfold Storage.salt
    split
    · simp_all
    · simp_all
  · intro hne
    unfold Storage.salt
    rw [if_neg hne]

/-- C8 witness: the salt theorem evaluated at the concrete fresh storage
(whose salt is the all-zero sentinel) and a concrete new salt value. -/
theorem C8_salt_contract_witness :
    exampleStorage.salt = none ∧
    (exampleStorage.update_salt (List.replicate 32 7)).header =
      { exampleStorage.header with salt := List.replicate 32 7 } :=
  ⟨(C8_salt_contract exampleStorage (List.replicate 32 7)).1.mpr (by decide),
   (C8_salt_contract exampleStorage (List.replicate 32 7)).2.2.1⟩

/-- C9: `new` succeeds exactly when `lo ≤ hi` and the mathematical
difference `hi - lo` is at most `DEFAULT_RANGE_SIZE` (the trap on
`id_range_hi < id_range_lo` comes first, so on every non-trapping path
the u64 subtraction `id_range_hi - id_range_lo` cannot underflow and
agrees with integer subtraction). -/
theorem C9_new_no_underflow (lo hi : Nat) (m : Memory) :
    ((∃ s, Storage.new lo hi m = .ok s) ↔
      lo ≤ hi ∧ (hi : ℤ) - (lo : ℤ) ≤ (DEFAULT_RANGE_SIZE : ℤ)) ∧
    (lo ≤ hi → ((hi - lo : Nat) : ℤ) = (hi : ℤ) - (lo : ℤ)) := by
  constructor
  · unfold Storage.new
    constructor
    · intro ⟨s, hs⟩
      split at hs
      · exact absurd hs (by simp)
      · split at hs
        · exact absurd hs (by simp)
        · omega
    · intro ⟨hle, hsize⟩
      rw [if_neg (by omega), if_neg (by omega)]
      exact ⟨_, rfl⟩
  · omega

/-- C9 witness: the construction theorem evaluated at the concrete range
`(10, 20)`: the success condition holds on both sides. -/
theorem C9_new_no_underflow_witness :
    (∃ s, Storage.new 10 20 emptyMemory = .ok s) ∧
    ((20 - 10 : Nat) : ℤ) = (20 : ℤ) - (10 : ℤ) :=
  ⟨(C9_new_no_underflow 10 20 emptyMemory).1.mpr (by constructor <;> decide),
   (C9_new_no_underflow 10 20 emptyMemory).2 (by decide)⟩

/-- C4: on a non-empty memory, `from_memory` fails fatally exactly when
the magic differs from `"IIC"` or the version lies outside the supported
interval `[3, 5]`; a corrupted magic always takes the magic-mismatch
trap regardless of the version byte; a version below the minimum gives
the distinct "no longer supported" trap, and a version above the maximum
gives the generic "unsupported version" trap. -/
theorem C4_from_memory_validation (m : Memory) (h : Header)
    (hm : 1 ≤ m.sizePages)
    (hh : h = deserializeHeader (readData m.data 0 HEADER_BYTE_SIZE)) :
    ((∃ e, Storage.from_memory m = .error e) ↔
      h.magic ≠ IIC_MAGIC ∨ h.version < SUPPORTED_LAYOUT_VERSIONS_start ∨
      SUPPORTED_LAYOUT_VERSIONS_end < h.version) ∧
    (h.magic ≠ IIC_MAGIC →
      Storage.from_memory m = .error (.invalidMagic h.magic)) ∧
    (h.magic = IIC_MAGIC → h.version < SUPPORTED_LAYOUT_VERSIONS_start →
      Storage.from_memory m = .error (.noLongerSupported h.version)) ∧
    (h.magic = IIC_MAGIC → SUPPORTED_LAYOUT_VERSIONS_end < h.version →
      Storage.from_memory m = .error (.unsupportedVersion h.version)) := by
  have hm' : ¬ m.sizePages < 1 := by omega
  have hmain : Storage.from_memory m =
      (if h.magic ≠ IIC_MAGIC then .error (.invalidMagic h.magic)
       else if h.version < SUPPORTED_LAYOUT_VERSIONS_start then
         .error (.noLongerSupported h.version)
       else if ¬ (SUPPORTED_LAYOUT_VERSIONS_start ≤ h.version ∧
                  h.version ≤ SUPPORTED_LAYOUT_VERSIONS_end) then
         .error (.unsupportedVersion h.version)
       else .ok (some { header := h, memory := m })) := by
    simp only [Storage.from_memory]
    rw [if_neg hm', ← hh]
  rw [hmain]
  simp only [SUPPORTED_LAYOUT_VERSIONS_start, SUPPORTED_LAYOUT_VERSIONS_end]
  refine ⟨⟨?_, ?_⟩, ?_, ?_, ?_⟩
  · intro ⟨e, he⟩
    by_contra hcon
    push_neg at hcon
    obtain ⟨h1, h2, h3⟩ := hcon
    rw [if_neg (not_not_intro h1), if_neg (by omega),
      if_neg (not_not_intro ⟨by omega, by omega⟩)] at he
    exact absurd he (by simp)
  · intro hdis
    by_cases hmag : h.magic = IIC_MAGIC
    · rcases hdis with h1 | h2 | h3
      · exact absurd hmag h1
      · rw [if_neg (not_not_intro hmag), if_pos h2]
        exact ⟨_, rfl⟩
      · by_cases hlow : h.version < 3
        · rw [if_neg (not_not_intro hmag), if_pos hlow]
          exact ⟨_, rfl⟩
        · rw [if_neg (not_not_intro hmag), if_neg hlow, if_pos (by omega)]
          exact ⟨_, rfl⟩
    · rw [if_pos hmag]
      exact ⟨_, rfl⟩
  · intro hbad
    rw [if_pos hbad]
  · intro hmag hlow
    rw [if_neg (not_not_intro hmag), if_pos hlow]
  · intro hmag hhigh
    rw [if_neg (not_not_intro hmag), if_neg (by omega), if_pos (by omega)]

/-- C4 witness: the validation theorem evaluated at the one-page
all-zero memory, whose deserialized magic `[0, 0, 0]` mismatches. -/
theorem C4_from_memory_validation_witness :
    ∃ e, Storage.from_memory zeroPageMemory = .error e :=
  (C4_from_memory_validation zeroPageMemory
    (deserializeHeader (readData zeroPageMemory.data 0 HEADER_BYTE_SIZE))
    (by decide) rfl).1.mpr (Or.inl (by decide))

/-- C6: when the computed persistent-state address exceeds the allocated
memory size in bytes, `read_persistent_state` returns `NotFound`
immediately, whatever the memory contents are (so no byte of memory is
consulted). -/
theorem C6_notfound_short_circuit (s : Storage)
    (h : s.unused_memory_start > s.memory.sizePages * WASM_PAGE_SIZE) :
    ∀ d : Nat → Nat,
      Storage.read_persistent_state
        { header := s.header
        , memory := { sizePages := s.memory.sizePages, data := d } } =
      .error .notFound := by
  intro d
  simp only [Storage.read_persistent_state]
  split
  · rfl
  · rename_i hcon
    exact absurd h hcon

/-- C6 witness: the short-circuit theorem evaluated at the fresh storage
over the empty memory (address 131072 > 0 allocated bytes), with the
memory contents replaced by an arbitrary nonzero function. -/
theorem C6_notfound_short_circuit_witness :
    exampleStorage.unused_memory_start >
      exampleStorage.memory.sizePages * WASM_PAGE_SIZE ∧
    Storage.read_persistent_state
      { header := exampleStorage.header
      , memory := { sizePages := exampleStorage.memory.sizePages
                  , data := fun i => i + 1 } } = .error .notFound :=
  ⟨by decide, C6_notfound_short_circuit exampleStorage (by decide) (fun i => i + 1)⟩

/-- C10: when the computed persistent-state address equals exactly the
allocated memory size in bytes, the strict short-circuit is not taken,
yet `read_persistent_state` still returns `NotFound` (the 4-byte magic
read at the very end of memory fails and that failure is mapped to
`NotFound`, never to `ReadError`). -/
theorem C10_boundary_notfound (s : Storage)
    (h : s.unused_memory_start = s.memory.sizePages * WASM_PAGE_SIZE) :
    s.read_persistent_state = .error .notFound := by
  have hr : Reader.read s.memory s.unused_memory_start 4 =
      .error { max_address := s.memory.sizePages * WASM_PAGE_SIZE
             , attempted_read_address := s.unused_memory_start } := by
    simp only [Reader.read]
    rw [if_pos (by omega), if_neg (by omega)]
  simp only [Storage.read_persistent_state]
  rw [if_neg (by omega), hr]

/-- C10 witness: the boundary theorem evaluated at a storage whose
first unused address is exactly the end of its two allocated pages. -/
theorem C10_boundary_notfound_witness :
    ({ header := exampleHeader
     , memory := { sizePages := 2, data := fun _ => 0 } } :
        Storage).unused_memory_start =
      2 * WASM_PAGE_SIZE ∧
    Storage.read_persistent_state
      { header := exampleHeader
      , memory := { sizePages := 2, data := fun _ => 0 } } =
      .error .notFound :=
  ⟨by decide,
   C10_boundary_notfound
     { header := exampleHeader, memory := { sizePages := 2, data := fun _ => 0 } }
     (by decide)⟩

/-- C3: for every pair `(lo, hi)` with `hi ≥ lo` and `hi - lo` at most
the maximum capacity, `new` succeeds, and `from_memory` applied to the
memory produced by `flush` yields a storage whose header has the
identical range bounds, the latest supported version, and record count
zero (indeed the identical header). -/
theorem C3_header_round_trip (lo hi : Nat) (m : Memory)
    (h1 : lo ≤ hi) (h2 : hi - lo ≤ DEFAULT_RANGE_SIZE)
    (h3 : lo < 2 ^ 64) (h4 : hi < 2 ^ 64) :
    ∃ s t, Storage.new lo hi m = .ok s ∧
      Storage.from_memory s.flush.memory = .ok (some t) ∧
      t.header.id_range_lo = lo ∧ t.header.id_range_hi = hi ∧
      t.header.version = SUPPORTED_LAYOUT_VERSIONS_end ∧
      t.header.num_users = 0 ∧ t.header = s.header := by
  have hwf : (initialHeader lo hi).WF :=
    ⟨show IIC_MAGIC.length = 3 by decide,
     show ∀ b ∈ IIC_MAGIC, b < 256 by decide,
     show (5 : Nat) < 2 ^ 8 by decide,
     show (0 : Nat) < 2 ^ 32 by decide,
     h3, h4,
     show DEFAULT_ENTRY_SIZE < 2 ^ 16 by decide,
     show EMPTY_SALT.length = 32 by decide,
     show ∀ b ∈ EMPTY_SALT, b < 256 by decide,
     show ENTRY_OFFSET < 2 ^ 64 by decide,
     show (0 : Nat) < 2 ^ 32 by decide,
     show (0 : Nat) < 2 ^ 32 by decide⟩
  have hnew : Storage.new lo hi m =
      .ok { header := initialHeader lo hi, memory := m } := by
    unfold Storage.new
    rw [if_neg (by omega), if_neg (by omega)]
  have hlen : (serializeHeader (initialHeader lo hi)).length =
      HEADER_BYTE_SIZE := serializeHeader_length _ hwf
  have hread : readData
      (Writer.write m 0 (serializeHeader (initialHeader lo hi))).data 0
      HEADER_BYTE_SIZE = serializeHeader (initialHeader lo hi) := by
    rw [Writer.write_data, ← hlen]
    exact readData_writeData_self 0 _ m.data
  have hpages : ¬ (Writer.write m 0
      (serializeHeader (initialHeader lo hi))).sizePages < 1 := by
    have hc := Writer.write_cover m 0 (serializeHeader (initialHeader lo hi))
    rw [hlen] at hc
    simp only [HEADER_BYTE_SIZE, WASM_PAGE_SIZE] at hc
    omega
  refine ⟨{ header := initialHeader lo hi, memory := m },
    { header := initialHeader lo hi
    , memory := Writer.write m 0 (serializeHeader (initialHeader lo hi)) },
    hnew, ?_, rfl, rfl, rfl, rfl, rfl⟩
  show Storage.from_memory
    (Writer.write m 0 (serializeHeader (initialHeader lo hi))) = _
  simp only [Storage.from_memory]
  rw [if_neg hpages, hread, deserializeHeader_serializeHeader _ hwf]
  rw [if_neg (show ¬ ((initialHeader lo hi).magic ≠ IIC_MAGIC) by
        simp [initialHeader]),
      if_neg (show ¬ ((initialHeader lo hi).version <
          SUPPORTED_LAYOUT_VERSIONS_start) by
        simp [initialHeader, SUPPORTED_LAYOUT_VERSIONS_start]),
      if_neg (show ¬ ¬ (SUPPORTED_LAYOUT_VERSIONS_start ≤
          (initialHeader lo hi).version ∧
          (initialHeader lo hi).version ≤ SUPPORTED_LAYOUT_VERSIONS_end) by
        simp [initialHeader, SUPPORTED_LAYOUT_VERSIONS_start,
          SUPPORTED_LAYOUT_VERSIONS_end])]

/-- C3 witness: the round-trip theorem evaluated at the concrete range
`(10, 20)` over the empty memory. -/
theorem C3_header_round_trip_witness :
    ∃ s t, Storage.new 10 20 emptyMemory = .ok s ∧
      Storage.from_memory s.flush.memory = .ok (some t) ∧
      t.header.id_range_lo = 10 ∧ t.header.id_range_hi = 20 ∧
      t.header.version = SUPPORTED_LAYOUT_VERSIONS_end ∧
      t.header.num_users = 0 ∧ t.header = s.header :=
  C3_header_round_trip 10 20 emptyMemory (by decide) (by decide)
    (by decide) (by decide)

/-- Helper for the persistent-state round trip: when the not-found
short-circuit is not taken and the three framed reads return the magic,
the little-endian length, and the content, `read_persistent_state`
decodes the state. -/
theorem read_persistent_state_of_reads (s : Storage) (p : PersistentState)
    (h0 : ¬ s.unused_memory_start > s.memory.sizePages * WASM_PAGE_SIZE)
    (h1 : Reader.read s.memory s.unused_memory_start 4 =
      .ok PERSISTENT_STATE_MAGIC)
    (h2 : Reader.read s.memory (s.unused_memory_start + 4) 8 =
      .ok (toLE 8 p.bytes.length))
    (h3 : p.bytes.length < 2 ^ 32)
    (h4 : Reader.read s.memory (s.unused_memory_start + 4 + 8) p.bytes.length =
      .ok p.bytes) :
    s.read_persistent_state = .ok p := by
  have hsize : fromLE (toLE 8 p.bytes.length) = p.bytes.length := by
    rw [fromLE_toLE]
    exact Nat.mod_eq_of_lt (by norm_num at h3 ⊢; omega)
  have hmod : p.bytes.length % 2 ^ 32 = p.bytes.length :=
    Nat.mod_eq_of_lt h3
  simp only [Storage.read_persistent_state]
  rw [if_neg h0]
  split
  · rename_i a heq
    rw [h1] at heq
    simp at heq
  · rename_i magic_buf heq
    rw [h1] at heq
    obtain rfl : PERSISTENT_STATE_MAGIC = magic_buf := by
      injection heq
    rw [if_neg (by decide)]
    split
    · rename_i e heq2
      rw [h2] at heq2
      simp at heq2
    · rename_i size_buf heq2
      rw [h2] at heq2
      obtain rfl : toLE 8 p.bytes.length = size_buf := by
        injection heq2
      rw [if_neg (by simp [toLE_length])]
      rw [hsize, hmod]
      split
      · rename_i e heq3
        rw [h4] at heq3
        simp at heq3
      · rename_i data_buf heq3
        rw [h4] at heq3
        obtain rfl : p.bytes = data_buf := by
          injection heq3
        rw [if_neg (by simp)]
        rfl

/-- C1: `write_persistent_state(state)` immediately followed by
`read_persistent_state()` on the same storage instance returns `Ok` of a
value equal to `state`, for every source-realizable snapshot: the
encoded payload is a wasm32 `Vec`, whose length is a 32-bit `usize`. -/
theorem C1_persistent_state_round_trip (s : Storage) (p : PersistentState)
    (hlen : p.bytes.length < 2 ^ 32) :
    (s.write_persistent_state p).read_persistent_state = .ok p := by
  have hcov3 : s.unused_memory_start + 4 + 8 + p.bytes.length ≤
      (Writer.write (Writer.write (Writer.write s.memory s.unused_memory_start
        PERSISTENT_STATE_MAGIC) (s.unused_memory_start + 4)
        (toLE 8 p.bytes.length)) (s.unused_memory_start + 4 + 8)
        p.bytes).sizePages * WASM_PAGE_SIZE :=
    Writer.write_cover _ _ _
  have h1 : Reader.read
      (Writer.write (Writer.write (Writer.write s.memory s.unused_memory_start
        PERSISTENT_STATE_MAGIC) (s.unused_memory_start + 4)
        (toLE 8 p.bytes.length)) (s.unused_memory_start + 4 + 8) p.bytes)
      s.unused_memory_start 4 = .ok PERSISTENT_STATE_MAGIC := by
    simp only [Reader.read]
    rw [if_neg (by omega)]
    rw [Writer.write_data,
      readData_writeData_of_le _ _ _ _ _ (by omega),
      Writer.write_data,
      readData_writeData_of_le _ _ _ _ _ (by omega),
      Writer.write_data]
    have hself := readData_writeData_self s.unused_memory_start
      PERSISTENT_STATE_MAGIC s.memory.data
    simpa using hself
  have h2 : Reader.read
      (Writer.write (Writer.write (Writer.write s.memory s.unused_memory_start
        PERSISTENT_STATE_MAGIC) (s.unused_memory_start + 4)
        (toLE 8 p.bytes.length)) (s.unused_memory_start + 4 + 8) p.bytes)
      (s.unused_memory_start + 4) 8 = .ok (toLE 8 p.bytes.length) := by
    simp only [Reader.read]
    rw [if_neg (by omega)]
    rw [Writer.write_data,
      readData_writeData_of_le _ _ _ _ _ (by omega),
      Writer.write_data]
    have hself := readData_writeData_self (s.unused_memory_start + 4)
      (toLE 8 p.bytes.length)
      (Writer.write s.memory s.unused_memory_start PERSISTENT_STATE_MAGIC).data
    rw [toLE_length] at hself
    rw [Writer.write_data] at hself
    simpa using hself
  have h4 : Reader.read
      (Writer.write (Writer.write (Writer.write s.memory s.unused_memory_start
        PERSISTENT_STATE_MAGIC) (s.unused_memory_start + 4)
        (toLE 8 p.bytes.length)) (s.unused_memory_start + 4 + 8) p.bytes)
      (s.unused_memory_start + 4 + 8) p.bytes.length = .ok p.bytes := by
    simp only [Reader.read]
    rw [if_neg (by omega)]
    rw [Writer.write_data]
    have hself := readData_writeData_self (s.unused_memory_start + 4 + 8)
      p.bytes (Writer.write (Writer.write s.memory s.unused_memory_start
        PERSISTENT_STATE_MAGIC) (s.unused_memory_start + 4)
        (toLE 8 p.bytes.length)).data
    simpa using hself
  have h0 : ¬ s.unused_memory_start >
      (Writer.write (Writer.write (Writer.write s.memory s.unused_memory_start
        PERSISTENT_STATE_MAGIC) (s.unused_memory_start + 4)
        (toLE 8 p.bytes.length)) (s.unused_memory_start + 4 + 8)
        p.bytes).sizePages * WASM_PAGE_SIZE := by omega
  exact read_persistent_state_of_reads (s.write_persistent_state p) p
    h0 h1 h2 hlen h4

/-- C1 witness: the round trip evaluated at the concrete fresh storage
and the three-byte snapshot `[1, 2, 3]`. -/
theorem C1_persistent_state_round_trip_witness :
    (PersistentState.mk [1, 2, 3]).bytes.length < 2 ^ 32 ∧
    (exampleStorage.write_persistent_state
      (PersistentState.mk [1, 2, 3])).read_persistent_state =
      .ok (PersistentState.mk [1, 2, 3]) :=
  ⟨by decide,
   C1_persistent_state_round_trip exampleStorage
     (PersistentState.mk [1, 2, 3]) (by decide)⟩

/-- C7 (amended): when the 4-byte persistent-state magic is fully
present at the computed address but the 8-byte length field, or the
declared content, is only partially available before the end of
allocated memory, `read_persistent_state` returns `ReadError` whose
`max_address` is the computed address plus the bytes successfully read
so far: for a truncated length field that is the end of allocated
memory; for truncated content it is the content address plus the bytes
actually read, namely the smaller of the wasm32-truncated buffer size
`size % 2 ^ 32` and the bytes remaining before the end of memory (this
coincides with the end of allocated memory whenever the declared length
is below `2 ^ 32`). -/
theorem C7_truncation_read_error (s : Storage)
    (hin : s.unused_memory_start + 4 ≤ s.memory.sizePages * WASM_PAGE_SIZE)
    (hmagic : readData s.memory.data s.unused_memory_start 4 =
      PERSISTENT_STATE_MAGIC) :
    (s.memory.sizePages * WASM_PAGE_SIZE < s.unused_memory_start + 4 + 8 →
      ∃ e, s.read_persistent_state = .error (.readError e) ∧
        e.max_address = s.memory.sizePages * WASM_PAGE_SIZE) ∧
    (s.unused_memory_start + 4 + 8 ≤ s.memory.sizePages * WASM_PAGE_SIZE →
     s.memory.sizePages * WASM_PAGE_SIZE < s.unused_memory_start + 4 + 8 +
       fromLE (readData s.memory.data (s.unused_memory_start + 4) 8) →
      ∃ e, s.read_persistent_state = .error (.readError e) ∧
        e.max_address = s.unused_memory_start + 4 + 8 +
          min (fromLE (readData s.memory.data (s.unused_memory_start + 4) 8) %
              2 ^ 32)
            (s.memory.sizePages * WASM_PAGE_SIZE -
              (s.unused_memory_start + 4 + 8))) := by
  have hmr : Reader.read s.memory s.unused_memory_start 4 =
      .ok PERSISTENT_STATE_MAGIC := by
    simp only [Reader.read]
    rw [if_neg (by omega), hmagic]
  constructor
  · intro hA
    by_cases hA1 : s.unused_memory_start + 4 < s.memory.sizePages * WASM_PAGE_SIZE
    · have hsr : Reader.read s.memory (s.unused_memory_start + 4) 8 =
          .ok (readData s.memory.data (s.unused_memory_start + 4)
            (s.memory.sizePages * WASM_PAGE_SIZE - (s.unused_memory_start + 4))) := by
        simp only [Reader.read]
        rw [if_pos (by omega), if_pos hA1]
      have hres : s.read_persistent_state = .error (.readError
          { max_address := s.unused_memory_start + 4 +
              (s.memory.sizePages * WASM_PAGE_SIZE - (s.unused_memory_start + 4))
          , attempted_read_address := s.unused_memory_start + 4 +
              (s.memory.sizePages * WASM_PAGE_SIZE -
                (s.unused_memory_start + 4)) + 1 }) := by
        simp only [Storage.read_persistent_state]
        rw [if_neg (by omega)]
        split
        · rename_i a heq
          rw [hmr] at heq
          simp at heq
        · rename_i magic_buf heq
          rw [hmr] at heq
          obtain rfl : PERSISTENT_STATE_MAGIC = magic_buf := by injection heq
          rw [if_neg (by decide)]
          split
          · rename_i e heq2
            rw [hsr] at heq2
            simp at heq2
          · rename_i size_buf heq2
            rw [hsr] at heq2
            obtain rfl : readData s.memory.data (s.unused_memory_start + 4)
                (s.memory.sizePages * WASM_PAGE_SIZE -
                  (s.unused_memory_start + 4)) = size_buf := by injection heq2
            rw [if_pos (by rw [readData_length]; omega), readData_length]
      exact ⟨_, hres,
        show s.unused_memory_start + 4 +
            (s.memory.sizePages * WASM_PAGE_SIZE - (s.unused_memory_start + 4)) =
          s.memory.sizePages * WASM_PAGE_SIZE by omega⟩
    · have hsr : Reader.read s.memory (s.unused_memory_start + 4) 8 =
          .error { max_address := s.memory.sizePages * WASM_PAGE_SIZE
                 , attempted_read_address := s.unused_memory_start + 4 } := by
        simp only [Reader.read]
        rw [if_pos (by omega), if_neg (by omega)]
      have hres : s.read_persistent_state = .error (.readError
          { max_address := s.memory.sizePages * WASM_PAGE_SIZE
          , attempted_read_address := s.unused_memory_start + 4 }) := by
        simp only [Storage.read_persistent_state]
        rw [if_neg (by omega)]
        split
        · rename_i a heq
          rw [hmr] at heq
          simp at heq
        · rename_i magic_buf heq
          rw [hmr] at heq
          obtain rfl : PERSISTENT_STATE_MAGIC = magic_buf := by injection heq
          rw [if_neg (by decide)]
          split
          · rename_i e heq2
            rw [hsr] at heq2
            obtain rfl : ({ max_address := s.memory.sizePages * WASM_PAGE_SIZE
                          , attempted_read_address :=
                              s.unused_memory_start + 4 } : OutOfBounds) = e := by
              injection heq2
            rfl
          · rename_i size_buf heq2
            rw [hsr] at heq2
            simp at heq2
      exact ⟨_, hres, rfl⟩
  · intro hB1 hB2
    have hsr : Reader.read s.memory (s.unused_memory_start + 4) 8 =
        .ok (readData s.memory.data (s.unused_memory_start + 4) 8) := by
      simp only [Reader.read]
      rw [if_neg (by omega)]
    by_cases hC : s.unused_memory_start + 4 + 8 +
        fromLE (readData s.memory.data (s.unused_memory_start + 4) 8) % 2 ^ 32 ≤
        s.memory.sizePages * WASM_PAGE_SIZE
    · have htr : Reader.read s.memory (s.unused_memory_start + 4 + 8)
          (fromLE (readData s.memory.data (s.unused_memory_start + 4) 8) %
            2 ^ 32) =
          .ok (readData s.memory.data (s.unused_memory_start + 4 + 8)
            (fromLE (readData s.memory.data (s.unused_memory_start + 4) 8) %
              2 ^ 32)) := by
        simp only [Reader.read]
        rw [if_neg (by omega)]
      have hres : s.read_persistent_state = .error (.readError
          { max_address := s.unused_memory_start + 4 + 8 +
              fromLE (readData s.memory.data (s.unused_memory_start + 4) 8) %
                2 ^ 32
          , attempted_read_address := s.unused_memory_start + 4 + 8 +
              fromLE (readData s.memory.data (s.unused_memory_start + 4) 8) %
                2 ^ 32 + 1 }) := by
        simp only [Storage.read_persistent_state]
        rw [if_neg (by omega)]
        split
        · rename_i a heq
          rw [hmr] at heq
          simp at heq
        · rename_i magic_buf heq
          rw [hmr] at heq
          obtain rfl : PERSISTENT_STATE_MAGIC = magic_buf := by injection heq
          rw [if_neg (by decide)]
          split
          · rename_i e heq2
            rw [hsr] at heq2
            simp at heq2
          · rename_i size_buf heq2
            rw [hsr] at heq2
            obtain rfl : readData s.memory.data (s.unused_memory_start + 4) 8 =
                size_buf := by injection heq2
            rw [if_neg (by rw [readData_length]; omega)]
            split
            · rename_i e heq3
              rw [htr] at heq3
              simp at heq3
            · rename_i data_buf heq3
              rw [htr] at heq3
              obtain rfl : readData s.memory.data (s.unused_memory_start + 4 + 8)
                  (fromLE (readData s.memory.data
                    (s.unused_memory_start + 4) 8) % 2 ^ 32) = data_buf := by
                injection heq3
              rw [if_pos (by rw [readData_length]; omega), readData_length]
      exact ⟨_, hres,
        show s.unused_memory_start + 4 + 8 +
            fromLE (readData s.memory.data (s.unused_memory_start + 4) 8) %
              2 ^ 32 =
          s.unused_memory_start + 4 + 8 +
            min (fromLE (readData s.memory.data
                (s.unused_memory_start + 4) 8) % 2 ^ 32)
              (s.memory.sizePages * WASM_PAGE_SIZE -
                (s.unused_memory_start + 4 + 8)) by omega⟩
    · by_cases hB3 : s.unused_memory_start + 4 + 8 <
          s.memory.sizePages * WASM_PAGE_SIZE
      · have htr : Reader.read s.memory (s.unused_memory_start + 4 + 8)
            (fromLE (readData s.memory.data (s.unused_memory_start + 4) 8) %
              2 ^ 32) =
            .ok (readData s.memory.data (s.unused_memory_start + 4 + 8)
              (s.memory.sizePages * WASM_PAGE_SIZE -
                (s.unused_memory_start + 4 + 8))) := by
          simp only [Reader.read]
          rw [if_pos (by omega), if_pos hB3]
        have hres : s.read_persistent_state = .error (.readError
            { max_address := s.unused_memory_start + 4 + 8 +
                (s.memory.sizePages * WASM_PAGE_SIZE -
                  (s.unused_memory_start + 4 + 8))
            , attempted_read_address := s.unused_memory_start + 4 + 8 +
                (s.memory.sizePages * WASM_PAGE_SIZE -
                  (s.unused_memory_start + 4 + 8)) + 1 }) := by
          simp only [Storage.read_persistent_state]
          rw [if_neg (by omega)]
          split
          · rename_i a heq
            rw [hmr] at heq
            simp at heq
          · rename_i magic_buf heq
            rw [hmr] at heq
            obtain rfl : PERSISTENT_STATE_MAGIC = magic_buf := by injection heq
            rw [if_neg (by decide)]
            split
            · rename_i e heq2
              rw [hsr] at heq2
              simp at heq2
            · rename_i size_buf heq2
              rw [hsr] at heq2
              obtain rfl : readData s.memory.data (s.unused_memory_start + 4) 8 =
                  size_buf := by injection heq2
              rw [if_neg (by rw [readData_length]; omega)]
              split
              · rename_i e heq3
                rw [htr] at heq3
                simp at heq3
              · rename_i data_buf heq3
                rw [htr] at heq3
                obtain rfl : readData s.memory.data
                    (s.unused_memory_start + 4 + 8)
                    (s.memory.sizePages * WASM_PAGE_SIZE -
                      (s.unused_memory_start + 4 + 8)) = data_buf := by
                  injection heq3
                rw [if_pos (by rw [readData_length]; omega), readData_length]
        exact ⟨_, hres,
          show s.unused_memory_start + 4 + 8 +
              (s.memory.sizePages * WASM_PAGE_SIZE -
                (s.unused_memory_start + 4 + 8)) =
            s.unused_memory_start + 4 + 8 +
              min (fromLE (readData s.memory.data
                  (s.unused_memory_start + 4) 8) % 2 ^ 32)
                (s.memory.sizePages * WASM_PAGE_SIZE -
                  (s.unused_memory_start + 4 + 8)) by omega⟩
      · have htr : Reader.read s.memory (s.unused_memory_start + 4 + 8)
            (fromLE (readData s.memory.data (s.unused_memory_start + 4) 8) %
              2 ^ 32) =
            .error { max_address := s.memory.sizePages * WASM_PAGE_SIZE
                   , attempted_read_address :=
                       s.unused_memory_start + 4 + 8 } := by
          simp only [Reader.read]
          rw [if_pos (by omega), if_neg (by omega)]
        have hres : s.read_persistent_state = .error (.readError
            { max_address := s.memory.sizePages * WASM_PAGE_SIZE
            , attempted_read_address := s.unused_memory_start + 4 + 8 }) := by
          simp only [Storage.read_persistent_state]
          rw [if_neg (by omega)]
          split
          · rename_i a heq
            rw [hmr] at heq
            simp at heq
          · rename_i magic_buf heq
            rw [hmr] at heq
            obtain rfl : PERSISTENT_STATE_MAGIC = magic_buf := by injection heq
            rw [if_neg (by decide)]
            split
            · rename_i e heq2
              rw [hsr] at heq2
              simp at heq2
            · rename_i size_buf heq2
              rw [hsr] at heq2
              obtain rfl : readData s.memory.data (s.unused_memory_start + 4) 8 =
                  size_buf := by injection heq2
              rw [if_neg (by rw [readData_length]; omega)]
              split
              · rename_i e heq3
                rw [htr] at heq3
                obtain rfl : ({ max_address :=
                                  s.memory.sizePages * WASM_PAGE_SIZE
                              , attempted_read_address :=
                                  s.unused_memory_start + 4 + 8 } :
                    OutOfBounds) = e := by injection heq3
                rfl
              · rename_i data_buf heq3
                rw [htr] at heq3
                simp at heq3
        exact ⟨_, hres,
          show s.memory.sizePages * WASM_PAGE_SIZE =
            s.unused_memory_start + 4 + 8 +
              min (fromLE (readData s.memory.data
                  (s.unused_memory_start + 4) 8) % 2 ^ 32)
                (s.memory.sizePages * WASM_PAGE_SIZE -
                  (s.unused_memory_start + 4 + 8)) by omega⟩

/-- C7 witness: the truncation theorem evaluated at the concrete storage
whose magic sits 6 bytes before the end of the single allocated page
(the 8-byte length read is cut short after 2 bytes). -/
theorem C7_truncation_read_error_witness :
    truncStorage.unused_memory_start + 4 ≤
      truncStorage.memory.sizePages * WASM_PAGE_SIZE ∧
    readData truncStorage.memory.data truncStorage.unused_memory_start 4 =
      PERSISTENT_STATE_MAGIC ∧
    truncStorage.memory.sizePages * WASM_PAGE_SIZE <
      truncStorage.unused_memory_start + 4 + 8 ∧
    (∃ e, truncStorage.read_persistent_state = .error (.readError e) ∧
      e.max_address = truncStorage.memory.sizePages * WASM_PAGE_SIZE) :=
  ⟨by decide, by decide, by decide,
   (C7_truncation_read_error truncStorage (by decide) (by decide)).1 (by decide)⟩

/-- C7 counterexample to the original claim: at the concrete storage
whose frame declares a content length of `2 ^ 32 + 10` bytes, the magic
is fully present and the declared content is only partially available,
yet the `ReadError` carries `max_address = 122` (the content address 112
plus the 10 bytes the wasm32-truncated buffer actually read), not the
end of allocated memory 65536 — the upper bound does not equal the end
of the bytes actually available. -/
theorem C7_truncation_counterexample :
    bigLenStorage.unused_memory_start + 4 ≤
      bigLenStorage.memory.sizePages * WASM_PAGE_SIZE ∧
    readData bigLenStorage.memory.data bigLenStorage.unused_memory_start 4 =
      PERSISTENT_STATE_MAGIC ∧
    bigLenStorage.unused_memory_start + 4 + 8 ≤
      bigLenStorage.memory.sizePages * WASM_PAGE_SIZE ∧
    bigLenStorage.memory.sizePages * WASM_PAGE_SIZE <
      bigLenStorage.unused_memory_start + 4 + 8 +
        fromLE (readData bigLenStorage.memory.data
          (bigLenStorage.unused_memory_start + 4) 8) ∧
    bigLenStorage.read_persistent_state =
      .error (.readError
        { max_address := 122, attempted_read_address := 123 }) ∧
    ¬ (∃ e, bigLenStorage.read_persistent_state = .error (.readError e) ∧
        e.max_address = bigLenStorage.memory.sizePages * WASM_PAGE_SIZE) := by
  refine ⟨by decide, by decide, by decide, by decide, by rfl, ?_⟩
  rintro ⟨e, he, hmax⟩
  have h5 : bigLenStorage.read_persistent_state =
      .error (.readError
        { max_address := 122, attempted_read_address := 123 }) := by rfl
  rw [h5] at he
  have h6 : ({ max_address := 122, attempted_read_address := 123 } :
      OutOfBounds) = e := by
    have h7 : PersistentStateError.readError
        { max_address := 122, attempted_read_address := 123 } =
        PersistentStateError.readError e := by injection he
    injection h7
  rw [← h6] at hmax
  exact absurd hmax (by decide)

end CustomDelegation
